import Mathlib

/-!
Shallow embedding of the `decompress` crate's path model and extraction
engine, and theorems checking the specification's claims against it.

Scope of the model:
* `src/rel_path.rs` — `RelPath` and its constructors (`get_parts`,
  `guess_kind`, `new_file`, `new_directory`).
* `src/decompressors/tar_common.rs` — `tar_list` and `tar_extract`.
* `src/decompressors/unrar.rs` — `Unrar::decompress`.

Modelling conventions:
* A filesystem path is modelled at the level of Rust's
  `std::path::Component` sequence: a list of `Component` values.  An
  `OsStr` path segment is a `Seg`, which either is valid UTF-8 (a Lean
  `String`) or is an opaque non-UTF-8 byte sequence (so `OsStr::to_str`
  returns `none` on it, and `to_string_lossy` replaces it).
* Rust's `Path::components()` normalization is embedded in
  `RawPath.componentList`: empty pieces are dropped, `.` pieces are
  dropped except in leading position, `..` pieces are kept.
* Fallible Rust code returning `Result` is modelled with `Outcome`,
  which has a third constructor for panics (`unreachable!` / `todo!`),
  since several code paths of this crate panic.
* Filesystem side effects are recorded as an explicit `Effect` trace;
  the model performs no I/O.  The `if !p.exists() { create_dir_all(p) }`
  pattern is abstracted as an unconditional `ensuredDirs` effect.
* The output directory `to` is taken as an already-absolutized,
  normalized directory (a list of segment names under the root), so
  `to.absolutize()` is the identity on it and `to` coincides with
  `output_dir` in `tar_extract` / `Unrar::decompress`.
-/

namespace Decompress

/-- One path segment as stored in an archive or on disk: either valid
UTF-8 text or an opaque non-UTF-8 byte sequence. -/
inductive Seg where
  | utf8 (s : String)
  | bytes (bs : List Nat)
deriving DecidableEq, Repr

/-- `OsStr::to_str`: succeeds exactly on UTF-8 segments. -/
def Seg.toStr : Seg → Option String
  | Seg.utf8 s => some s
  | Seg.bytes _ => none

/-- `OsStr::to_string_lossy`: non-UTF-8 bytes are replaced with the
Unicode replacement character (one per byte in this model). -/
def Seg.lossy : Seg → String
  | Seg.utf8 s => s
  | Seg.bytes bs => String.mk (List.replicate bs.length (Char.ofNat 0xFFFD))

/-- `std::path::Component` (the `Prefix` variant is not modelled; on the
Unix model drive letters are ordinary `normal` segments, which matches
`std::path` on Unix hosts). -/
inductive Component where
  | rootDir
  | curDir
  | parentDir
  | normal (g : Seg)
deriving DecidableEq, Repr

/-- How one non-empty path piece is classified as a `Component`. -/
def classifySeg (g : Seg) : Component :=
  if g = Seg.utf8 "." then Component.curDir
  else if g = Seg.utf8 ".." then Component.parentDir
  else Component.normal g

/-- A raw path as reported by an archive or built by the program:
whether it is rooted, plus its non-empty pieces in order. -/
structure RawPath where
  absolute : Bool
  pieces : List Seg
deriving DecidableEq, Repr

/-- `Path::components()`: empty pieces are dropped, `.` is normalized
away except at the beginning of a relative path, `..` is kept. -/
def RawPath.componentList (p : RawPath) : List Component :=
  let cs := (p.pieces.filter (fun g => g ≠ Seg.utf8 "")).map classifySeg
  if p.absolute then
    Component.rootDir :: cs.filter (fun c => c ≠ Component.curDir)
  else
    match cs with
    | Component.curDir :: rest =>
        Component.curDir :: rest.filter (fun c => c ≠ Component.curDir)
    | _ => cs.filter (fun c => c ≠ Component.curDir)

/-- The host platform, which decides which characters separate path
pieces in `std::path`. -/
inductive Platform where
  | unix
  | windows
deriving DecidableEq, Repr

/-- Path-separator characters per platform: `/` everywhere, and
backslash additionally on Windows. -/
def Platform.isSep : Platform → Char → Bool
  | Platform.unix, c => c = '/'
  | Platform.windows, c => c = '/' || c = '\\'

/-- `std::path::MAIN_SEPARATOR` per platform. -/
def Platform.mainSep : Platform → Char
  | Platform.unix => '/'
  | Platform.windows => '\\'

/-- Split a character list at the characters satisfying `p`, keeping
empty pieces (the behavior of `String.split`); structurally recursive so
that concrete paths evaluate inside the kernel. -/
def splitCharsAux (p : Char → Bool) : List Char → List Char → List String
  | cur, [] => [String.mk cur.reverse]
  | cur, c :: cs =>
      if p c then String.mk cur.reverse :: splitCharsAux p [] cs
      else splitCharsAux p (c :: cur) cs

/-- `String.split` on a predicate, at the character-list level. -/
def splitString (p : Char → Bool) (s : String) : List String :=
  splitCharsAux p [] s.data

/-- Parse a UTF-8 path string into a `RawPath` under a platform's
separator rules (drive prefixes are not modelled; the claims use
prefix-free inputs on the Windows side). -/
def parsePath (pl : Platform) (s : String) : RawPath :=
  { absolute :=
      match s.data with
      | [] => false
      | c :: _ => pl.isSep c,
    pieces := ((splitString (fun c => pl.isSep c) s).filter (fun t => t ≠ "")).map Seg.utf8 }

/-- Lossy display of a single component. -/
def Component.lossy : Component → String
  | Component.rootDir => "/"
  | Component.curDir => "."
  | Component.parentDir => ".."
  | Component.normal g => g.lossy

/-- `PathBuf::to_string_lossy` on a path built from a component list
(components joined by `/`, with a leading `/` for a rooted path). -/
def renderComps (cs : List Component) : String :=
  match cs with
  | Component.rootDir :: rest => "/" ++ String.intercalate "/" (rest.map Component.lossy)
  | _ => String.intercalate "/" (cs.map Component.lossy)

/-- `to_string_lossy` on a raw (unparsed) path. -/
def RawPath.lossyString (p : RawPath) : String :=
  (if p.absolute then "/" else "") ++ String.intercalate "/" (p.pieces.map Seg.lossy)

/-- The crate's single tagged error value.  Modelled from the spec:
the enum itself lives in `lib.rs`, which is not under `src/`; the
variants are the ones used by the sources in `src/` and named in the
spec's error taxonomy (§7).  Path payloads are carried as their lossy
string rendering. -/
inductive DecompressError where
  | PathNotRelative (path : String)
  | PathNotUtf8 (path : String)
  | MissingCompressor
  | Error (msg : String)
deriving DecidableEq, Repr

/-- Result of running fallible Rust code: a value, a returned error, or
a panic (`unreachable!` / `todo!`). -/
inductive Outcome (α : Type) where
  | ok (a : α)
  | err (e : DecompressError)
  | panic (msg : String)
deriving DecidableEq, Repr

/-- Message produced by Rust's `unreachable!()`. -/
def unreachableMsg : String := "internal error: entered unreachable code"

/-- The component-by-component body of `RelPath::get_parts`: `Normal`
components must be UTF-8, every other component hits `unreachable!()`.
The first offending component decides the result (iterator adapters are
lazy, so `collect::<Result<_,_>>` stops at the first error). -/
def getPartsList (rendered : String) : List Component → Outcome (List String)
  | [] => Outcome.ok []
  | Component.normal g :: rest =>
      match g.toStr with
      | some s =>
          match getPartsList rendered rest with
          | Outcome.ok parts => Outcome.ok (s :: parts)
          | Outcome.err e => Outcome.err e
          | Outcome.panic m => Outcome.panic m
      | none => Outcome.err (DecompressError.PathNotUtf8 rendered)
  | _ :: _ => Outcome.panic unreachableMsg

/-- `RelPath::get_parts`: reject non-relative paths, then collect the
`Normal` components as UTF-8 strings.  On Unix a path is relative
exactly when its component list does not start with the root. -/
def get_parts (comps : List Component) : Outcome (List String) :=
  if comps.head? = some Component.rootDir then
    Outcome.err (DecompressError.PathNotRelative (renderComps comps))
  else getPartsList (renderComps comps) comps

/-- `RelPathKind`. -/
inductive RelPathKind where
  | file
  | directory
deriving DecidableEq, Repr

/-- `RelPath`: kind, segment list, and the `/`-joined display value. -/
structure RelPath where
  kind : RelPathKind
  parts : List String
  value : String
deriving DecidableEq, Repr

/-- `RelPath::new`. -/
def RelPath.new (kind : RelPathKind) (comps : List Component) : Outcome RelPath :=
  match get_parts comps with
  | Outcome.ok parts => Outcome.ok ⟨kind, parts, String.intercalate "/" parts⟩
  | Outcome.err e => Outcome.err e
  | Outcome.panic m => Outcome.panic m

/-- `RelPath::new_directory`. -/
def RelPath.new_directory (comps : List Component) : Outcome RelPath :=
  RelPath.new RelPathKind.directory comps

/-- `RelPath::new_file`. -/
def RelPath.new_file (comps : List Component) : Outcome RelPath :=
  RelPath.new RelPathKind.file comps

/-- `RelPath::new_file` applied to a path string parsed under a given
platform's separator rules. -/
def RelPath.new_file_str (pl : Platform) (s : String) : Outcome RelPath :=
  RelPath.new RelPathKind.file (parsePath pl s).componentList

/-- `RelPath::guess_kind` on a UTF-8 string: directory iff the string
ends with `MAIN_SEPARATOR` or `/` (a one-character `ends_with` is a
last-character test). -/
def guess_kind (pl : Platform) (s : String) : RelPathKind :=
  match s.data.getLast? with
  | some c => if c = pl.mainSep ∨ c = '/' then RelPathKind.directory else RelPathKind.file
  | none => RelPathKind.file

/-- The component list of an absolute directory given by its segment
names under the root. -/
def absComps (d : List String) : List Component :=
  Component.rootDir :: d.map (fun s => Component.normal (Seg.utf8 s))

/-- `Path::join` at the component level: an absolute right-hand side
replaces the base; otherwise the pieces are appended and `.` components,
being no longer leading, are normalized away. -/
def joinComps (base rel : List Component) : List Component :=
  if rel.head? = some Component.rootDir then rel
  else base ++ rel.filter (fun c => c ≠ Component.curDir)

/-- `Path::parent` at the component level: `none` for the empty path and
for the bare root, otherwise the path without its last component. -/
def parentComps : List Component → Option (List Component)
  | [] => none
  | [Component.rootDir] => none
  | cs => some cs.dropLast

/-- One recorded filesystem side effect. -/
inductive Effect where
  | ensuredDirs (p : List Component)
  | wroteFile (p : List Component)
  | setPerms (p : List Component)
  | createdSymlink (p : List Component)
  | rarExtracted (p : List Component)
deriving DecidableEq, Repr

/-- The filesystem path an effect touches. -/
def Effect.path : Effect → List Component
  | Effect.ensuredDirs p => p
  | Effect.wroteFile p => p
  | Effect.setPerms p => p
  | Effect.createdSymlink p => p
  | Effect.rarExtracted p => p

/-- Accumulated extraction state: the `files` result list plus the trace
of filesystem side effects, both in order. -/
structure ExtractState where
  files : List String
  effects : List Effect
deriving DecidableEq, Repr

/-- `FilterArgs` (`src/filter_args.rs` mirrors `MapArgs`): the entry's
`RelPath`, its absolute output path, and the absolutized output root. -/
structure FilterArgs where
  rel_path : RelPath
  path : List Component
  output_dir : List Component

/-- `MapArgs` (`src/map_args.rs`). -/
structure MapArgs where
  rel_path : RelPath
  path : List Component
  output_dir : List Component

/-- `ExtractOpts`. -/
structure ExtractOpts where
  strip : Nat
  detect_content : Bool
  filter : FilterArgs → Bool
  map : MapArgs → List Component

/-- Modelled from the spec: `ExtractOptsBuilder`'s default `map` (in
`lib.rs`, not under `src/`) is the identity on the computed output path
("identity by default", §6). -/
def defaultMap : MapArgs → List Component := fun args => args.path

/-- Modelled from the spec: the default `filter` keeps every entry
(§4.3.2.d skips an entry only on an explicit `false`). -/
def defaultFilter : FilterArgs → Bool := fun _ => true

/-- Default options: `strip = 0`, extension-based detection, keep-all
filter, identity map. -/
def default_opts : ExtractOpts :=
  { strip := 0, detect_content := false, filter := defaultFilter, map := defaultMap }

/-- `tar::EntryType`, restricted to the variants the engine
distinguishes plus representatives of the unsupported ones. -/
inductive EntryType where
  | regular
  | directory
  | symlink
  | hardLink
  | charDevice
  | blockDevice
  | fifo
deriving DecidableEq, Repr

/-- One decoded tar entry: its raw in-archive path and its declared
type.  Bodies and modes carry no information the claims need. -/
structure TarEntry where
  path : RawPath
  etype : EntryType
deriving DecidableEq, Repr

/-- Result of processing one entry: continue with a new state, abort
with an error, or panic. -/
inductive EntryStep where
  | next (st : ExtractState)
  | failed (st : ExtractState) (e : DecompressError)
  | panicked (st : ExtractState) (msg : String)
deriving DecidableEq, Repr

/-- The state reached after an entry step (writes already performed are
kept even when the step aborts). -/
def EntryStep.state : EntryStep → ExtractState
  | EntryStep.next st => st
  | EntryStep.failed st _ => st
  | EntryStep.panicked st _ => st

/-- Message produced by `todo!("Unsupported entry type {e:?}")` (the
formatted entry type is abstracted away). -/
def todoUnsupportedMsg : String := "not yet implemented: Unsupported entry type"

/-- The loop body of `tar_extract` after the strip, acting on the
already-stripped component list `filepath` and the entry type. -/
def tarStepCore (toDir : List String) (opts : ExtractOpts) (st : ExtractState)
    (filepath : List Component) (etype : EntryType) : EntryStep :=
  let toC := absComps toDir
  let outpath1 := joinComps toC filepath
  if outpath1 = toC then EntryStep.next st
  else
    let output_path := joinComps toC filepath
    match (if etype = EntryType.directory then RelPath.new_directory filepath
           else RelPath.new_file filepath) with
    | Outcome.err e => EntryStep.failed st e
    | Outcome.panic m => EntryStep.panicked st m
    | Outcome.ok rel_path =>
        if (etype = EntryType.directory ∨ etype = EntryType.regular)
            ∧ opts.filter ⟨rel_path, output_path, toC⟩ = false then
          EntryStep.next st
        else
          let outpath := opts.map ⟨rel_path, output_path, toC⟩
          match etype with
          | EntryType.directory => EntryStep.next st
          | EntryType.regular =>
              let dirEffs :=
                match parentComps outpath with
                | some p => [Effect.ensuredDirs p]
                | none => []
              EntryStep.next
                { files := st.files ++ [renderComps outpath],
                  effects := st.effects ++ dirEffs
                    ++ [Effect.wroteFile outpath, Effect.setPerms outpath] }
          | EntryType.symlink =>
              let dirEffs :=
                match parentComps outpath with
                | some p => [Effect.ensuredDirs p]
                | none => []
              EntryStep.next
                { files := st.files,
                  effects := st.effects ++ dirEffs ++ [Effect.createdSymlink outpath] }
          | _ => EntryStep.panicked st todoUnsupportedMsg

/-- One iteration of the `tar_extract` loop: parse the entry path,
strip the first `opts.strip` components, and hand over to the core. -/
def tarProcessEntry (toDir : List String) (opts : ExtractOpts) (st : ExtractState)
    (entry : TarEntry) : EntryStep :=
  tarStepCore toDir opts st (entry.path.componentList.drop opts.strip) entry.etype

/-- Run a per-entry step function over the entry list, threading the
state; an error or panic stops the loop but keeps the state reached. -/
def runEntries {σ : Type} (step : ExtractState → σ → EntryStep) :
    ExtractState → List σ → ExtractState × Outcome (List String)
  | st, [] => (st, Outcome.ok st.files)
  | st, e :: rest =>
      match step st e with
      | EntryStep.next st2 => runEntries step st2 rest
      | EntryStep.failed st2 er => (st2, Outcome.err er)
      | EntryStep.panicked st2 m => (st2, Outcome.panic m)

/-- `tar_extract`: ensure the output directory exists, then process the
entries in archive order. -/
def tar_extract (toDir : List String) (opts : ExtractOpts) (entries : List TarEntry) :
    ExtractState × Outcome (List String) :=
  runEntries (tarProcessEntry toDir opts)
    { files := [], effects := [Effect.ensuredDirs (absComps toDir)] } entries

/-- `tar_list`: every entry path converted lossily to a string; no
filesystem effects, no `RelPath` construction. -/
def tar_list (entries : List TarEntry) : Outcome (List String) :=
  Outcome.ok (entries.map (fun e => e.path.lossyString))

/-- The entry kinds `unrar::FileHeader` distinguishes through
`is_directory` / `is_file`; everything else is `other`. -/
inductive RarKind where
  | file
  | directory
  | other
deriving DecidableEq, Repr

/-- One rar archive entry header. -/
structure RarEntry where
  filename : RawPath
  kind : RarKind
deriving DecidableEq, Repr

/-- Message produced by `todo!("Stripping path components not supported")`
in `Unrar::decompress`. -/
def todoStripMsg : String := "not yet implemented: Stripping path components not supported"

/-- The loop body of `Unrar::decompress`: directory and file entries are
joined unstripped onto the output directory and extracted when the
filter keeps them; every other control path falls through to
`header.skip()`, which has no effect. -/
def unrarProcessEntry (toDir : List String) (opts : ExtractOpts) (st : ExtractState)
    (entry : RarEntry) : EntryStep :=
  let toC := absComps toDir
  if entry.kind = RarKind.directory ∨ entry.kind = RarKind.file then
    let comps := entry.filename.componentList
    let output_path := joinComps toC comps
    if output_path ≠ toC then
      match (if entry.kind = RarKind.directory then RelPath.new_directory comps
             else RelPath.new_file comps) with
      | Outcome.err e => EntryStep.failed st e
      | Outcome.panic m => EntryStep.panicked st m
      | Outcome.ok rel_path =>
          let full_output_path := joinComps toC comps
          if opts.filter ⟨rel_path, full_output_path, toC⟩ then
            let outp := opts.map ⟨rel_path, full_output_path, toC⟩
            EntryStep.next
              { files := st.files ++ [renderComps outp],
                effects := st.effects ++ [Effect.rarExtracted outp] }
          else EntryStep.next st
    else EntryStep.next st
  else EntryStep.next st

/-- `Unrar::decompress`: `strip != 0` hits a `todo!` before anything is
opened or created; otherwise ensure the output directory and process the
headers in order. -/
def unrar_decompress (toDir : List String) (opts : ExtractOpts) (entries : List RarEntry) :
    ExtractState × Outcome (List String) :=
  if opts.strip ≠ 0 then
    ({ files := [], effects := [] }, Outcome.panic todoStripMsg)
  else
    runEntries (unrarProcessEntry toDir opts)
      { files := [], effects := [Effect.ensuredDirs (absComps toDir)] } entries

/-- Containment of a path in a base directory: the base's components are
an initial run of the path's components. -/
def withinDir (base p : List Component) : Prop := ∃ rest, p = base ++ rest

/-- The all-`normal`, all-UTF-8 component list built from a segment
name list. -/
def normComps (parts : List String) : List Component :=
  parts.map (fun s => Component.normal (Seg.utf8 s))

lemma getPartsList_ok_shape (r : String) :
    ∀ comps parts, getPartsList r comps = Outcome.ok parts → comps = normComps parts := by
  intro comps
  induction comps with
  | nil =>
      intro parts h
      simp only [getPartsList, Outcome.ok.injEq] at h
      simp [normComps, ← h]
  | cons c rest ih =>
      intro parts h
      cases c with
      | rootDir => simp [getPartsList] at h
      | curDir => simp [getPartsList] at h
      | parentDir => simp [getPartsList] at h
      | normal g =>
          cases g with
          | bytes bs => simp [getPartsList, Seg.toStr] at h
          | utf8 s =>
              simp only [getPartsList, Seg.toStr] at h
              rcases hr : getPartsList r rest with pr | e | m <;> rw [hr] at h <;>
                simp only [Outcome.ok.injEq] at h
              · rw [← h, normComps, List.map_cons]
                have := ih pr hr
                rw [normComps] at this
                rw [← this]
              · exact absurd h (by simp)
              · exact absurd h (by simp)

lemma get_parts_ok_shape (comps : List Component) (parts : List String)
    (h : get_parts comps = Outcome.ok parts) : comps = normComps parts := by
  rw [get_parts] at h
  by_cases hh : comps.head? = some Component.rootDir
  · rw [if_pos hh] at h; exact absurd h (by simp)
  · rw [if_neg hh] at h; exact getPartsList_ok_shape _ comps parts h

lemma relPath_new_ok_shape (kind : RelPathKind) (comps : List Component) (rp : RelPath)
    (h : RelPath.new kind comps = Outcome.ok rp) : comps = normComps rp.parts := by
  rw [RelPath.new] at h
  rcases hg : get_parts comps with pr | e | m <;> rw [hg] at h <;>
    simp only [Outcome.ok.injEq] at h
  · rw [← h]
    exact get_parts_ok_shape comps pr hg
  · exact absurd h (by simp)
  · exact absurd h (by simp)

lemma joinComps_nil (base : List Component) : joinComps base [] = base := by
  simp [joinComps]

lemma joinComps_normComps (base : List Component) (parts : List String) :
    joinComps base (normComps parts) = base ++ normComps parts := by
  rw [joinComps, if_neg, List.filter_eq_self.mpr]
  · intro c hc
    rw [normComps] at hc
    simp only [List.mem_map] at hc
    obtain ⟨s, _, rfl⟩ := hc
    simp
  · cases parts <;> simp [normComps]

lemma normComps_ne_nil_iff (parts : List String) : normComps parts ≠ [] ↔ parts ≠ [] := by
  cases parts <;> simp [normComps]

lemma append_ne_left (base l : List Component) (h : l ≠ []) : base ++ l ≠ base := by
  intro he
  apply h
  have := congrArg List.length he
  simp only [List.length_append] at this
  have : l.length = 0 := by omega
  exact List.length_eq_zero.mp this

lemma parentComps_cons_cons (a b : Component) (l : List Component) :
    parentComps (a :: b :: l) = some ((a :: b :: l).dropLast) := by
  unfold parentComps
  split
  · simp_all
  · simp_all
  · rfl

lemma parentComps_append (base l : List Component) (hb : base ≠ []) (hl : l ≠ []) :
    parentComps (base ++ l) = some (base ++ l.dropLast) := by
  obtain ⟨a, bs, rfl⟩ := List.exists_cons_of_ne_nil hb
  obtain ⟨x, xs, rfl⟩ := List.exists_cons_of_ne_nil hl
  cases bs with
  | nil =>
      rw [List.cons_append, List.nil_append, parentComps_cons_cons]
      simp
  | cons b bs' =>
      rw [List.cons_append, List.cons_append, parentComps_cons_cons]
      simp only [Option.some.injEq]
      rw [← List.cons_append, ← List.cons_append, List.dropLast_append_of_ne_nil]
      simp


lemma tarStepCore_skip (toDir : List String) (opts : ExtractOpts) (st : ExtractState)
    (filepath : List Component) (etype : EntryType)
    (h : joinComps (absComps toDir) filepath = absComps toDir) :
    tarStepCore toDir opts st filepath etype = EntryStep.next st := by
  simp only [tarStepCore, h, if_pos rfl]
  simp

lemma tarStepCore_relerr (toDir : List String) (opts : ExtractOpts) (st : ExtractState)
    (filepath : List Component) (etype : EntryType) (e : DecompressError)
    (hne : joinComps (absComps toDir) filepath ≠ absComps toDir)
    (hrel : (if etype = EntryType.directory then RelPath.new_directory filepath
             else RelPath.new_file filepath) = Outcome.err e) :
    tarStepCore toDir opts st filepath etype = EntryStep.failed st e := by
  simp only [tarStepCore, if_neg hne, hrel]

lemma tarStepCore_relpanic (toDir : List String) (opts : ExtractOpts) (st : ExtractState)
    (filepath : List Component) (etype : EntryType) (m : String)
    (hne : joinComps (absComps toDir) filepath ≠ absComps toDir)
    (hrel : (if etype = EntryType.directory then RelPath.new_directory filepath
             else RelPath.new_file filepath) = Outcome.panic m) :
    tarStepCore toDir opts st filepath etype = EntryStep.panicked st m := by
  simp only [tarStepCore, if_neg hne, hrel]

lemma tarStepCore_filterFalse (toDir : List String) (opts : ExtractOpts) (st : ExtractState)
    (filepath : List Component) (etype : EntryType) (rel : RelPath)
    (hne : joinComps (absComps toDir) filepath ≠ absComps toDir)
    (hrel : (if etype = EntryType.directory then RelPath.new_directory filepath
             else RelPath.new_file filepath) = Outcome.ok rel)
    (hdf : etype = EntryType.directory ∨ etype = EntryType.regular)
    (hfil : opts.filter ⟨rel, joinComps (absComps toDir) filepath, absComps toDir⟩ = false) :
    tarStepCore toDir opts st filepath etype = EntryStep.next st := by
  simp only [tarStepCore, if_neg hne, hrel]
  rw [if_pos ⟨hdf, hfil⟩]

lemma tarStepCore_dirNoop (toDir : List String) (opts : ExtractOpts) (st : ExtractState)
    (filepath : List Component) (rel : RelPath)
    (hne : joinComps (absComps toDir) filepath ≠ absComps toDir)
    (hrel : RelPath.new_directory filepath = Outcome.ok rel) :
    tarStepCore toDir opts st filepath EntryType.directory = EntryStep.next st := by
  simp only [tarStepCore, if_neg hne, if_pos rfl, hrel]
  by_cases hfil : opts.filter ⟨rel, joinComps (absComps toDir) filepath, absComps toDir⟩
      = false <;>
    simp [hfil]

lemma tarStepCore_regularWrite (toDir : List String) (opts : ExtractOpts) (st : ExtractState)
    (filepath : List Component) (rel : RelPath)
    (hne : joinComps (absComps toDir) filepath ≠ absComps toDir)
    (hrel : RelPath.new_file filepath = Outcome.ok rel)
    (hfil : opts.filter ⟨rel, joinComps (absComps toDir) filepath, absComps toDir⟩ = true) :
    tarStepCore toDir opts st filepath EntryType.regular =
      EntryStep.next
        { files := st.files ++ [renderComps
            (opts.map ⟨rel, joinComps (absComps toDir) filepath, absComps toDir⟩)],
          effects := st.effects
            ++ (match parentComps
                  (opts.map ⟨rel, joinComps (absComps toDir) filepath, absComps toDir⟩) with
                | some p => [Effect.ensuredDirs p]
                | none => [])
            ++ [Effect.wroteFile
                  (opts.map ⟨rel, joinComps (absComps toDir) filepath, absComps toDir⟩),
                Effect.setPerms
                  (opts.map ⟨rel, joinComps (absComps toDir) filepath, absComps toDir⟩)] } := by
  simp only [tarStepCore, if_neg hne]
  rw [if_neg (by simp)]
  rw [hrel]
  simp [hfil]

lemma tarStepCore_symlinkWrite (toDir : List String) (opts : ExtractOpts) (st : ExtractState)
    (filepath : List Component) (rel : RelPath)
    (hne : joinComps (absComps toDir) filepath ≠ absComps toDir)
    (hrel : RelPath.new_file filepath = Outcome.ok rel) :
    tarStepCore toDir opts st filepath EntryType.symlink =
      EntryStep.next
        { files := st.files,
          effects := st.effects
            ++ (match parentComps
                  (opts.map ⟨rel, joinComps (absComps toDir) filepath, absComps toDir⟩) with
                | some p => [Effect.ensuredDirs p]
                | none => [])
            ++ [Effect.createdSymlink
                  (opts.map ⟨rel, joinComps (absComps toDir) filepath, absComps toDir⟩)] } := by
  simp only [tarStepCore, if_neg hne]
  rw [if_neg (by simp)]
  rw [hrel]
  simp

lemma tarStepCore_unsupported (toDir : List String) (opts : ExtractOpts) (st : ExtractState)
    (filepath : List Component) (etype : EntryType) (rel : RelPath)
    (hne : joinComps (absComps toDir) filepath ≠ absComps toDir)
    (hrel : RelPath.new_file filepath = Outcome.ok rel)
    (hun : etype = EntryType.hardLink ∨ etype = EntryType.charDevice
            ∨ etype = EntryType.blockDevice ∨ etype = EntryType.fifo) :
    tarStepCore toDir opts st filepath etype = EntryStep.panicked st todoUnsupportedMsg := by
  rcases hun with rfl | rfl | rfl | rfl <;>
    · simp only [tarStepCore, if_neg hne]
      rw [if_neg (by simp)]
      rw [hrel]
      simp

lemma unrarStep_skipKind (toDir : List String) (opts : ExtractOpts) (st : ExtractState)
    (entry : RarEntry) (h : entry.kind = RarKind.other) :
    unrarProcessEntry toDir opts st entry = EntryStep.next st := by
  simp [unrarProcessEntry, h]

lemma unrarStep_extract (toDir : List String) (opts : ExtractOpts) (st : ExtractState)
    (entry : RarEntry) (rel : RelPath)
    (hk : entry.kind = RarKind.directory ∨ entry.kind = RarKind.file)
    (hne : joinComps (absComps toDir) entry.filename.componentList ≠ absComps toDir)
    (hrel : (if entry.kind = RarKind.directory
             then RelPath.new_directory entry.filename.componentList
             else RelPath.new_file entry.filename.componentList) = Outcome.ok rel)
    (hfil : opts.filter ⟨rel, joinComps (absComps toDir) entry.filename.componentList,
              absComps toDir⟩ = true) :
    unrarProcessEntry toDir opts st entry =
      EntryStep.next
        { files := st.files ++ [renderComps (opts.map ⟨rel,
            joinComps (absComps toDir) entry.filename.componentList, absComps toDir⟩)],
          effects := st.effects ++ [Effect.rarExtracted (opts.map ⟨rel,
            joinComps (absComps toDir) entry.filename.componentList, absComps toDir⟩)] } := by
  simp only [unrarProcessEntry, if_pos hk, if_pos hne, hrel]
  simp [hfil]

lemma unrarStep_filterFalse (toDir : List String) (opts : ExtractOpts) (st : ExtractState)
    (entry : RarEntry) (rel : RelPath)
    (hk : entry.kind = RarKind.directory ∨ entry.kind = RarKind.file)
    (hne : joinComps (absComps toDir) entry.filename.componentList ≠ absComps toDir)
    (hrel : (if entry.kind = RarKind.directory
             then RelPath.new_directory entry.filename.componentList
             else RelPath.new_file entry.filename.componentList) = Outcome.ok rel)
    (hfil : opts.filter ⟨rel, joinComps (absComps toDir) entry.filename.componentList,
              absComps toDir⟩ = false) :
    unrarProcessEntry toDir opts st entry = EntryStep.next st := by
  simp only [unrarProcessEntry, if_pos hk, if_pos hne, hrel]
  simp [hfil]

lemma withinDir_append (base rest : List Component) : withinDir base (base ++ rest) :=
  ⟨rest, rfl⟩

lemma withinDir_self (base : List Component) : withinDir base base :=
  ⟨[], (List.append_nil _).symm⟩

lemma tarStepCore_effects_within (toDir : List String) (opts : ExtractOpts)
    (st : ExtractState) (filepath : List Component) (etype : EntryType)
    (hmap : opts.map = defaultMap)
    (hinv : ∀ f ∈ st.effects, withinDir (absComps toDir) f.path) :
    ∀ f ∈ (tarStepCore toDir opts st filepath etype).state.effects,
      withinDir (absComps toDir) f.path := by
  by_cases h1 : joinComps (absComps toDir) filepath = absComps toDir
  · rw [tarStepCore_skip toDir opts st filepath etype h1]
    exact hinv
  · rcases hrel : (if etype = EntryType.directory then RelPath.new_directory filepath
        else RelPath.new_file filepath) with rel | e | m
    rotate_left
    · rw [tarStepCore_relerr toDir opts st filepath etype e h1 hrel]
      exact hinv
    · rw [tarStepCore_relpanic toDir opts st filepath etype m h1 hrel]
      exact hinv
    · have hshape : filepath = normComps rel.parts := by
        by_cases hd : etype = EntryType.directory
        · rw [if_pos hd] at hrel
          exact relPath_new_ok_shape RelPathKind.directory filepath rel hrel
        · rw [if_neg hd] at hrel
          exact relPath_new_ok_shape RelPathKind.file filepath rel hrel
      have hjoin : joinComps (absComps toDir) filepath = absComps toDir ++ filepath := by
        rw [hshape]
        exact joinComps_normComps _ _
      have hfp_ne : filepath ≠ [] := by
        intro hemp
        exact h1 (by rw [hemp, joinComps_nil])
      have houtp : opts.map ⟨rel, joinComps (absComps toDir) filepath, absComps toDir⟩
          = absComps toDir ++ filepath := by
        rw [hmap, defaultMap]
        exact hjoin
      have hparent : parentComps (absComps toDir ++ filepath)
          = some (absComps toDir ++ filepath.dropLast) :=
        parentComps_append _ _ (by simp [absComps]) hfp_ne
      cases etype with
      | directory =>
          rw [if_pos rfl] at hrel
          rw [tarStepCore_dirNoop toDir opts st filepath rel h1 hrel]
          exact hinv
      | regular =>
          rw [if_neg (by simp)] at hrel
          by_cases hfil : opts.filter ⟨rel, joinComps (absComps toDir) filepath,
              absComps toDir⟩ = true
          · rw [tarStepCore_regularWrite toDir opts st filepath rel h1 hrel hfil]
            intro f hf
            simp only [EntryStep.state] at hf
            rw [houtp, hparent] at hf
            simp only [List.mem_append, List.mem_singleton, List.mem_cons,
              List.not_mem_nil, or_false] at hf
            rcases hf with (hf | hf) | hf | hf
            · exact hinv f hf
            · rw [hf]
              exact withinDir_append _ _
            · rw [hf]
              exact withinDir_append _ _
            · rw [hf]
              exact withinDir_append _ _
          · have hfil2 : opts.filter ⟨rel, joinComps (absComps toDir) filepath,
                absComps toDir⟩ = false := by
              simpa using hfil
            rw [tarStepCore_filterFalse toDir opts st filepath EntryType.regular rel h1
              (by rw [if_neg (by simp)]; exact hrel) (Or.inr rfl) hfil2]
            exact hinv
      | symlink =>
          rw [if_neg (by simp)] at hrel
          rw [tarStepCore_symlinkWrite toDir opts st filepath rel h1 hrel]
          intro f hf
          simp only [EntryStep.state] at hf
          rw [houtp, hparent] at hf
          simp only [List.mem_append, List.mem_singleton, List.mem_cons,
            List.not_mem_nil, or_false] at hf
          rcases hf with (hf | hf) | hf
          · exact hinv f hf
          · rw [hf]
            exact withinDir_append _ _
          · rw [hf]
            exact withinDir_append _ _
      | hardLink =>
          rw [if_neg (by simp)] at hrel
          rw [tarStepCore_unsupported toDir opts st filepath _ rel h1 hrel (by simp)]
          exact hinv
      | charDevice =>
          rw [if_neg (by simp)] at hrel
          rw [tarStepCore_unsupported toDir opts st filepath _ rel h1 hrel (by simp)]
          exact hinv
      | blockDevice =>
          rw [if_neg (by simp)] at hrel
          rw [tarStepCore_unsupported toDir opts st filepath _ rel h1 hrel (by simp)]
          exact hinv
      | fifo =>
          rw [if_neg (by simp)] at hrel
          rw [tarStepCore_unsupported toDir opts st filepath _ rel h1 hrel (by simp)]
          exact hinv

lemma runEntries_nil {σ : Type} (step : ExtractState → σ → EntryStep) (st : ExtractState) :
    runEntries step st [] = (st, Outcome.ok st.files) := rfl

lemma runEntries_cons {σ : Type} (step : ExtractState → σ → EntryStep) (st : ExtractState)
    (e : σ) (rest : List σ) :
    runEntries step st (e :: rest) =
      match step st e with
      | EntryStep.next st2 => runEntries step st2 rest
      | EntryStep.failed st2 er => (st2, Outcome.err er)
      | EntryStep.panicked st2 m => (st2, Outcome.panic m) := rfl

lemma runEntries_effects_inv {σ : Type} (step : ExtractState → σ → EntryStep)
    (P : Effect → Prop)
    (hstep : ∀ st e, (∀ f ∈ st.effects, P f) → ∀ f ∈ (step st e).state.effects, P f) :
    ∀ (es : List σ) (st : ExtractState), (∀ f ∈ st.effects, P f) →
      ∀ f ∈ (runEntries step st es).1.effects, P f := by
  intro es
  induction es with
  | nil =>
      intro st h
      simpa [runEntries_nil] using h
  | cons e rest ih =>
      intro st h
      have hst2 := hstep st e h
      rw [runEntries_cons]
      rcases hs : step st e with st2 | ⟨st2, er⟩ | ⟨st2, m⟩ <;> rw [hs] at hst2
      · exact ih st2 hst2
      · exact hst2
      · exact hst2


/-- C1: in `tar_extract` with the default identity `map`, every
filesystem effect — output-directory creation, parent-directory
creation, file write, permission setting, symlink creation — touches a
path contained in the absolutized output directory, for every archive,
every `strip` value and every filter.  Adversarial entries (`..`
components, absolute paths, mixed separators) abort the extraction, by
error or panic, before writing, so an unsafe entry never produces a
write outside the output directory. -/
theorem c1_no_escape (toDir : List String) (opts : ExtractOpts) (entries : List TarEntry)
    (hmap : opts.map = defaultMap) :
    ∀ f ∈ (tar_extract toDir opts entries).1.effects, withinDir (absComps toDir) f.path := by
  unfold tar_extract
  refine runEntries_effects_inv (tarProcessEntry toDir opts) _ ?_ entries _ ?_
  · intro st e h
    exact tarStepCore_effects_within toDir opts st _ _ hmap h
  · intro f hf
    simp only [List.mem_singleton] at hf
    rw [hf]
    exact withinDir_self _

/-- Witness for C1 at a concrete one-file archive. -/
theorem c1_no_escape_witness :
    withinDir (absComps ["out"])
      (Effect.wroteFile (absComps ["out"] ++ [Component.normal (Seg.utf8 "a")])).path :=
  c1_no_escape ["out"] default_opts [⟨⟨false, [Seg.utf8 "a"]⟩, EntryType.regular⟩] rfl
    _ (by decide)


/-- C5: tar-like extraction with `strip = k` removes exactly the first
`k` components before joining onto the output directory: an entry whose
path has exactly `k` components is skipped entirely (no error, no
write); an entry processed under the identity map is written at the
output directory followed by its dropped-path remainder; and with
`strip = 0` the entry's full relative component list appears unchanged
under the output directory. -/
theorem c5_strip_semantics :
    (∀ (toDir : List String) (opts : ExtractOpts) (st : ExtractState) (entry : TarEntry),
        entry.path.componentList.length = opts.strip →
        tarProcessEntry toDir opts st entry = EntryStep.next st)
    ∧ (∀ (toDir : List String) (opts : ExtractOpts) (st : ExtractState) (entry : TarEntry)
          (rel : RelPath),
        opts.map = defaultMap →
        entry.etype = EntryType.regular →
        RelPath.new_file (entry.path.componentList.drop opts.strip) = Outcome.ok rel →
        entry.path.componentList.drop opts.strip ≠ [] →
        opts.filter ⟨rel, absComps toDir ++ entry.path.componentList.drop opts.strip,
          absComps toDir⟩ = true →
        tarProcessEntry toDir opts st entry =
          EntryStep.next
            { files := st.files ++ [renderComps (absComps toDir
                ++ entry.path.componentList.drop opts.strip)],
              effects := st.effects
                ++ [Effect.ensuredDirs (absComps toDir
                      ++ (entry.path.componentList.drop opts.strip).dropLast),
                    Effect.wroteFile (absComps toDir
                      ++ entry.path.componentList.drop opts.strip),
                    Effect.setPerms (absComps toDir
                      ++ entry.path.componentList.drop opts.strip)] })
    ∧ (∀ (toDir : List String) (opts : ExtractOpts) (st : ExtractState) (entry : TarEntry)
          (rel : RelPath),
        opts.strip = 0 →
        opts.map = defaultMap →
        entry.etype = EntryType.regular →
        RelPath.new_file entry.path.componentList = Outcome.ok rel →
        entry.path.componentList ≠ [] →
        opts.filter ⟨rel, absComps toDir ++ entry.path.componentList, absComps toDir⟩ = true →
        tarProcessEntry toDir opts st entry =
          EntryStep.next
            { files := st.files ++ [renderComps (absComps toDir ++ entry.path.componentList)],
              effects := st.effects
                ++ [Effect.ensuredDirs (absComps toDir ++ entry.path.componentList.dropLast),
                    Effect.wroteFile (absComps toDir ++ entry.path.componentList),
                    Effect.setPerms (absComps toDir ++ entry.path.componentList)] }) := by
  have hb : ∀ (toDir : List String) (opts : ExtractOpts) (st : ExtractState) (entry : TarEntry)
      (rel : RelPath),
      opts.map = defaultMap →
      entry.etype = EntryType.regular →
      RelPath.new_file (entry.path.componentList.drop opts.strip) = Outcome.ok rel →
      entry.path.componentList.drop opts.strip ≠ [] →
      opts.filter ⟨rel, absComps toDir ++ entry.path.componentList.drop opts.strip,
        absComps toDir⟩ = true →
      tarProcessEntry toDir opts st entry =
        EntryStep.next
          { files := st.files ++ [renderComps (absComps toDir
              ++ entry.path.componentList.drop opts.strip)],
            effects := st.effects
              ++ [Effect.ensuredDirs (absComps toDir
                    ++ (entry.path.componentList.drop opts.strip).dropLast),
                  Effect.wroteFile (absComps toDir
                    ++ entry.path.componentList.drop opts.strip),
                  Effect.setPerms (absComps toDir
                    ++ entry.path.componentList.drop opts.strip)] } := by
    intro toDir opts st entry rel hmap hty hrel hne hfil
    have hshape : entry.path.componentList.drop opts.strip = normComps rel.parts :=
      relPath_new_ok_shape RelPathKind.file _ rel hrel
    have hjoin : joinComps (absComps toDir) (entry.path.componentList.drop opts.strip)
        = absComps toDir ++ entry.path.componentList.drop opts.strip := by
      rw [hshape]
      exact joinComps_normComps _ _
    have hne2 : joinComps (absComps toDir) (entry.path.componentList.drop opts.strip)
        ≠ absComps toDir := by
      rw [hjoin]
      exact append_ne_left _ _ hne
    have hfil2 : opts.filter ⟨rel,
        joinComps (absComps toDir) (entry.path.componentList.drop opts.strip),
        absComps toDir⟩ = true := by
      rw [hjoin]
      exact hfil
    unfold tarProcessEntry
    rw [hty]
    rw [tarStepCore_regularWrite toDir opts st _ rel hne2 hrel hfil2]
    rw [hmap]
    simp only [defaultMap]
    rw [hjoin, parentComps_append _ _ (by simp [absComps]) hne]
    simp
  refine ⟨?_, hb, ?_⟩
  · intro toDir opts st entry h
    have hdrop : entry.path.componentList.drop opts.strip = [] :=
      List.drop_eq_nil_of_le (le_of_eq h)
    unfold tarProcessEntry
    rw [hdrop]
    exact tarStepCore_skip toDir opts st [] entry.etype (joinComps_nil _)
  · intro toDir opts st entry rel h0 hmap hty hrel hne hfil
    have := hb toDir opts st entry rel hmap hty
      (by rw [h0, List.drop_zero]; exact hrel)
      (by rw [h0, List.drop_zero]; exact hne)
      (by rw [h0, List.drop_zero]; exact hfil)
    rw [h0, List.drop_zero] at this
    exact this

/-- Witness for C5: a one-component entry is skipped under `strip = 1`;
`root/a` under `strip = 1` is written at `/out/a`; `a` under `strip = 0`
is written at `/out/a`. -/
theorem c5_strip_semantics_witness :
    tarProcessEntry ["out"] { default_opts with strip := 1 } ⟨[], []⟩
        ⟨⟨false, [Seg.utf8 "root"]⟩, EntryType.regular⟩ = EntryStep.next ⟨[], []⟩
    ∧ tarProcessEntry ["out"] { default_opts with strip := 1 } ⟨[], []⟩
        ⟨⟨false, [Seg.utf8 "root", Seg.utf8 "a"]⟩, EntryType.regular⟩
        = EntryStep.next
            { files := ["/out/a"],
              effects := [Effect.ensuredDirs (absComps ["out"]),
                Effect.wroteFile (absComps ["out"] ++ [Component.normal (Seg.utf8 "a")]),
                Effect.setPerms (absComps ["out"] ++ [Component.normal (Seg.utf8 "a")])] }
    ∧ tarProcessEntry ["out"] default_opts ⟨[], []⟩
        ⟨⟨false, [Seg.utf8 "a"]⟩, EntryType.regular⟩
        = EntryStep.next
            { files := ["/out/a"],
              effects := [Effect.ensuredDirs (absComps ["out"]),
                Effect.wroteFile (absComps ["out"] ++ [Component.normal (Seg.utf8 "a")]),
                Effect.setPerms (absComps ["out"] ++ [Component.normal (Seg.utf8 "a")])] } :=
  ⟨c5_strip_semantics.1 ["out"] { default_opts with strip := 1 } ⟨[], []⟩ _ (by decide),
   (c5_strip_semantics.2.1 ["out"] { default_opts with strip := 1 } ⟨[], []⟩
      ⟨⟨false, [Seg.utf8 "root", Seg.utf8 "a"]⟩, EntryType.regular⟩
      ⟨RelPathKind.file, ["a"], "a"⟩ rfl rfl (by decide) (by decide) (by decide)).trans
    (by decide),
   (c5_strip_semantics.2.2 ["out"] default_opts ⟨[], []⟩
      ⟨⟨false, [Seg.utf8 "a"]⟩, EntryType.regular⟩
      ⟨RelPathKind.file, ["a"], "a"⟩ rfl rfl rfl (by decide) (by decide) (by decide)).trans
    (by decide)⟩


/-- C2 counterexample: an archive whose only entry is a character-device
node makes `tar_extract` panic (`todo!`) instead of failing with the
unsupported-entry-type variant of the tagged error value (zero files are
recorded), and the rar adapter silently skips a non-file/non-directory
entry and reports success. -/
theorem c2_counterexample :
    (tar_extract ["out"] default_opts
        [⟨⟨false, [Seg.utf8 "dev0"]⟩, EntryType.charDevice⟩]).2
      = Outcome.panic todoUnsupportedMsg
    ∧ (tar_extract ["out"] default_opts
        [⟨⟨false, [Seg.utf8 "dev0"]⟩, EntryType.charDevice⟩]).1.files = []
    ∧ (unrar_decompress ["out"] default_opts
        [⟨⟨false, [Seg.utf8 "dev0"]⟩, RarKind.other⟩]).2 = Outcome.ok [] :=
  ⟨by decide, by decide, by decide⟩

/-- C2 (amended): in the tar-like engine an entry of unsupported type
(hard link, device node, fifo, …) aborts the whole extraction via the
`todo!` panic with the state unchanged — it is never silently skipped,
and an archive whose only entry is a device node records zero files —
but the panic is not the unsupported-entry-type variant of the tagged
error value; the rar adapter, by contrast, silently skips entries that
are neither file nor directory and reports success. -/
theorem c2_unsupported_entries :
    (∀ (toDir : List String) (opts : ExtractOpts) (st : ExtractState) (entry : TarEntry)
        (rel : RelPath),
      (entry.etype = EntryType.hardLink ∨ entry.etype = EntryType.charDevice
        ∨ entry.etype = EntryType.blockDevice ∨ entry.etype = EntryType.fifo) →
      RelPath.new_file (entry.path.componentList.drop opts.strip) = Outcome.ok rel →
      joinComps (absComps toDir) (entry.path.componentList.drop opts.strip)
        ≠ absComps toDir →
      tarProcessEntry toDir opts st entry = EntryStep.panicked st todoUnsupportedMsg)
    ∧ (∀ (toDir : List String) (opts : ExtractOpts) (st : ExtractState) (entry : RarEntry),
      entry.kind = RarKind.other →
      unrarProcessEntry toDir opts st entry = EntryStep.next st) := by
  constructor
  · intro toDir opts st entry rel hun hrel hne
    unfold tarProcessEntry
    exact tarStepCore_unsupported toDir opts st _ _ rel hne hrel hun
  · intro toDir opts st entry hk
    exact unrarStep_skipKind toDir opts st entry hk

/-- Witness for C2 (amended) at a device-node tar entry and a
non-file/non-directory rar entry. -/
theorem c2_unsupported_entries_witness :
    tarProcessEntry ["out"] default_opts ⟨[], []⟩
        ⟨⟨false, [Seg.utf8 "dev0"]⟩, EntryType.charDevice⟩
      = EntryStep.panicked ⟨[], []⟩ todoUnsupportedMsg
    ∧ unrarProcessEntry ["out"] default_opts ⟨[], []⟩
        ⟨⟨false, [Seg.utf8 "dev0"]⟩, RarKind.other⟩ = EntryStep.next ⟨[], []⟩ :=
  ⟨c2_unsupported_entries.1 ["out"] default_opts ⟨[], []⟩
      ⟨⟨false, [Seg.utf8 "dev0"]⟩, EntryType.charDevice⟩
      ⟨RelPathKind.file, ["dev0"], "dev0"⟩ (by decide) (by decide) (by decide),
   c2_unsupported_entries.2 ["out"] default_opts ⟨[], []⟩
      ⟨⟨false, [Seg.utf8 "dev0"]⟩, RarKind.other⟩ rfl⟩

/-- C3 counterexample: in the rar adapter a directory entry that passes
the filter is recorded in the returned `files` list (`/out/d` below),
contradicting the claim that directory entries are never recorded in
every adapter. -/
theorem c3_counterexample :
    (unrar_decompress ["out"] default_opts
        [⟨⟨false, [Seg.utf8 "d"]⟩, RarKind.directory⟩]).2 = Outcome.ok ["/out/d"] := by
  decide

/-- C3 (amended): in the tar-like engine a directory entry is a no-op —
state unchanged, path never recorded — but the rar adapter records a
directory entry's mapped output path in the returned list (and extracts
it). -/
theorem c3_directory_entries :
    (∀ (toDir : List String) (opts : ExtractOpts) (st : ExtractState) (entry : TarEntry)
        (rel : RelPath),
      entry.etype = EntryType.directory →
      RelPath.new_directory (entry.path.componentList.drop opts.strip) = Outcome.ok rel →
      tarProcessEntry toDir opts st entry = EntryStep.next st)
    ∧ (∀ (toDir : List String) (opts : ExtractOpts) (st : ExtractState) (entry : RarEntry)
        (rel : RelPath),
      entry.kind = RarKind.directory →
      RelPath.new_directory entry.filename.componentList = Outcome.ok rel →
      joinComps (absComps toDir) entry.filename.componentList ≠ absComps toDir →
      opts.filter ⟨rel, joinComps (absComps toDir) entry.filename.componentList,
        absComps toDir⟩ = true →
      unrarProcessEntry toDir opts st entry =
        EntryStep.next
          { files := st.files ++ [renderComps (opts.map ⟨rel,
              joinComps (absComps toDir) entry.filename.componentList, absComps toDir⟩)],
            effects := st.effects ++ [Effect.rarExtracted (opts.map ⟨rel,
              joinComps (absComps toDir) entry.filename.componentList, absComps toDir⟩)] }) := by
  constructor
  · intro toDir opts st entry rel hty hrel
    unfold tarProcessEntry
    rw [hty]
    by_cases h1 : joinComps (absComps toDir) (entry.path.componentList.drop opts.strip)
        = absComps toDir
    · exact tarStepCore_skip toDir opts st _ _ h1
    · exact tarStepCore_dirNoop toDir opts st _ rel h1 hrel
  · intro toDir opts st entry rel hk hrel hne hfil
    exact unrarStep_extract toDir opts st entry rel (Or.inl hk) hne
      (by rw [if_pos hk]; exact hrel) hfil

/-- Witness for C3 (amended): a directory entry `d` is a no-op in the
tar engine and is recorded as `/out/d` by the rar adapter. -/
theorem c3_directory_entries_witness :
    tarProcessEntry ["out"] default_opts ⟨[], []⟩
        ⟨⟨false, [Seg.utf8 "d"]⟩, EntryType.directory⟩ = EntryStep.next ⟨[], []⟩
    ∧ unrarProcessEntry ["out"] default_opts ⟨[], []⟩
        ⟨⟨false, [Seg.utf8 "d"]⟩, RarKind.directory⟩
      = EntryStep.next
          { files := ["/out/d"],
            effects := [Effect.rarExtracted
              (absComps ["out"] ++ [Component.normal (Seg.utf8 "d")])] } :=
  ⟨c3_directory_entries.1 ["out"] default_opts ⟨[], []⟩
      ⟨⟨false, [Seg.utf8 "d"]⟩, EntryType.directory⟩
      ⟨RelPathKind.directory, ["d"], "d"⟩ rfl (by decide),
   (c3_directory_entries.2 ["out"] default_opts ⟨[], []⟩
      ⟨⟨false, [Seg.utf8 "d"]⟩, RarKind.directory⟩
      ⟨RelPathKind.directory, ["d"], "d"⟩ rfl (by decide) (by decide) (by decide)).trans
    (by decide)⟩

/-- C4 counterexample: `Unrar::decompress` with `strip = 1` panics
(`todo!`) instead of stripping and returning normally. -/
theorem c4_counterexample :
    unrar_decompress ["out"] { default_opts with strip := 1 }
        [⟨⟨false, [Seg.utf8 "root", Seg.utf8 "a"]⟩, RarKind.file⟩]
      = (⟨[], []⟩, Outcome.panic todoStripMsg) := by
  decide

/-- C4 (amended): in the tar-like engine the strip option discards
exactly the first `opts.strip` leading components — two entries of equal
type whose component lists agree after dropping `opts.strip` components
are processed identically — while the rar adapter panics via `todo!`
whenever `strip ≠ 0`, before opening the archive or touching the
filesystem. -/
theorem c4_strip_support :
    (∀ (toDir : List String) (opts : ExtractOpts) (st : ExtractState) (e₁ e₂ : TarEntry),
      e₁.etype = e₂.etype →
      e₁.path.componentList.drop opts.strip = e₂.path.componentList.drop opts.strip →
      tarProcessEntry toDir opts st e₁ = tarProcessEntry toDir opts st e₂)
    ∧ (∀ (toDir : List String) (opts : ExtractOpts) (entries : List RarEntry),
      opts.strip ≠ 0 →
      unrar_decompress toDir opts entries = (⟨[], []⟩, Outcome.panic todoStripMsg)) := by
  constructor
  · intro toDir opts st e₁ e₂ hty hdrop
    unfold tarProcessEntry
    rw [hty, hdrop]
  · intro toDir opts entries h
    simp [unrar_decompress, h]

/-- Witness for C4 (amended): `root/a` stripped by one component is
processed like bare `a`, and the rar adapter panics for `strip = 2`. -/
theorem c4_strip_support_witness :
    tarProcessEntry ["out"] { default_opts with strip := 1 } ⟨[], []⟩
        ⟨⟨false, [Seg.utf8 "root", Seg.utf8 "a"]⟩, EntryType.regular⟩
      = tarProcessEntry ["out"] { default_opts with strip := 1 } ⟨[], []⟩
          ⟨⟨false, [Seg.utf8 "other", Seg.utf8 "a"]⟩, EntryType.regular⟩
    ∧ unrar_decompress ["out"] { default_opts with strip := 2 } []
      = (⟨[], []⟩, Outcome.panic todoStripMsg) :=
  ⟨c4_strip_support.1 ["out"] { default_opts with strip := 1 } ⟨[], []⟩
      ⟨⟨false, [Seg.utf8 "root", Seg.utf8 "a"]⟩, EntryType.regular⟩
      ⟨⟨false, [Seg.utf8 "other", Seg.utf8 "a"]⟩, EntryType.regular⟩ rfl (by decide),
   c4_strip_support.2 ["out"] { default_opts with strip := 2 } [] (by decide)⟩


lemma unrarStep_joinRoot (toDir : List String) (opts : ExtractOpts) (st : ExtractState)
    (entry : RarEntry)
    (h : joinComps (absComps toDir) entry.filename.componentList = absComps toDir) :
    unrarProcessEntry toDir opts st entry = EntryStep.next st := by
  simp [unrarProcessEntry, h]

/-- C6: an entry of directory or regular-file type for which the filter
returns `false` is skipped with the state unchanged — no directory
creation, no file creation, no bytes written, and its path absent from
the returned list — in the tar-like engine and in the rar adapter. -/
theorem c6_filter_skip :
    (∀ (toDir : List String) (opts : ExtractOpts) (st : ExtractState) (entry : TarEntry)
        (rel : RelPath),
      (entry.etype = EntryType.directory ∨ entry.etype = EntryType.regular) →
      (if entry.etype = EntryType.directory
       then RelPath.new_directory (entry.path.componentList.drop opts.strip)
       else RelPath.new_file (entry.path.componentList.drop opts.strip)) = Outcome.ok rel →
      opts.filter ⟨rel, joinComps (absComps toDir) (entry.path.componentList.drop opts.strip),
        absComps toDir⟩ = false →
      tarProcessEntry toDir opts st entry = EntryStep.next st)
    ∧ (∀ (toDir : List String) (opts : ExtractOpts) (st : ExtractState) (entry : RarEntry)
        (rel : RelPath),
      (entry.kind = RarKind.directory ∨ entry.kind = RarKind.file) →
      (if entry.kind = RarKind.directory
       then RelPath.new_directory entry.filename.componentList
       else RelPath.new_file entry.filename.componentList) = Outcome.ok rel →
      opts.filter ⟨rel, joinComps (absComps toDir) entry.filename.componentList,
        absComps toDir⟩ = false →
      unrarProcessEntry toDir opts st entry = EntryStep.next st) := by
  constructor
  · intro toDir opts st entry rel hdf hrel hfil
    unfold tarProcessEntry
    by_cases h1 : joinComps (absComps toDir) (entry.path.componentList.drop opts.strip)
        = absComps toDir
    · exact tarStepCore_skip toDir opts st _ _ h1
    · exact tarStepCore_filterFalse toDir opts st _ _ rel h1 hrel hdf hfil
  · intro toDir opts st entry rel hk hrel hfil
    by_cases h1 : joinComps (absComps toDir) entry.filename.componentList = absComps toDir
    · exact unrarStep_joinRoot toDir opts st entry h1
    · exact unrarStep_filterFalse toDir opts st entry rel hk h1 hrel hfil

/-- Witness for C6: with a reject-all filter, a regular tar entry and a
regular rar entry are skipped with the state unchanged. -/
theorem c6_filter_skip_witness :
    tarProcessEntry ["out"]
        { strip := 0, detect_content := false, filter := fun _ => false, map := defaultMap }
        ⟨[], []⟩ ⟨⟨false, [Seg.utf8 "a"]⟩, EntryType.regular⟩ = EntryStep.next ⟨[], []⟩
    ∧ unrarProcessEntry ["out"]
        { strip := 0, detect_content := false, filter := fun _ => false, map := defaultMap }
        ⟨[], []⟩ ⟨⟨false, [Seg.utf8 "a"]⟩, RarKind.file⟩ = EntryStep.next ⟨[], []⟩ :=
  ⟨c6_filter_skip.1 ["out"]
      { strip := 0, detect_content := false, filter := fun _ => false, map := defaultMap }
      ⟨[], []⟩ ⟨⟨false, [Seg.utf8 "a"]⟩, EntryType.regular⟩
      ⟨RelPathKind.file, ["a"], "a"⟩ (Or.inr rfl) (by decide) rfl,
   c6_filter_skip.2 ["out"]
      { strip := 0, detect_content := false, filter := fun _ => false, map := defaultMap }
      ⟨[], []⟩ ⟨⟨false, [Seg.utf8 "a"]⟩, RarKind.file⟩
      ⟨RelPathKind.file, ["a"], "a"⟩ (Or.inr rfl) (by decide) rfl⟩

lemma tarStepCore_symlink_noFilter (toDir : List String) (o₁ o₂ : ExtractOpts)
    (st : ExtractState) (filepath : List Component) (hm : o₁.map = o₂.map) :
    tarStepCore toDir o₁ st filepath EntryType.symlink
      = tarStepCore toDir o₂ st filepath EntryType.symlink := by
  by_cases h1 : joinComps (absComps toDir) filepath = absComps toDir
  · rw [tarStepCore_skip toDir o₁ st filepath EntryType.symlink h1,
        tarStepCore_skip toDir o₂ st filepath EntryType.symlink h1]
  · rcases hrel : RelPath.new_file filepath with rel | e | m
    · rw [tarStepCore_symlinkWrite toDir o₁ st filepath rel h1 hrel,
          tarStepCore_symlinkWrite toDir o₂ st filepath rel h1 hrel, hm]
    · rw [tarStepCore_relerr toDir o₁ st filepath EntryType.symlink e h1
            (by rw [if_neg (by simp)]; exact hrel),
          tarStepCore_relerr toDir o₂ st filepath EntryType.symlink e h1
            (by rw [if_neg (by simp)]; exact hrel)]
    · rw [tarStepCore_relpanic toDir o₁ st filepath EntryType.symlink m h1
            (by rw [if_neg (by simp)]; exact hrel),
          tarStepCore_relpanic toDir o₂ st filepath EntryType.symlink m h1
            (by rw [if_neg (by simp)]; exact hrel)]

/-- C10: for a symlink tar entry the filter is never consulted — the
step's result is the same for any two option records agreeing on `strip`
and `map` — the link is materialized at the path produced by `opts.map`,
and the symlink's output path is never appended to the returned `files`
list even though the link was written to disk. -/
theorem c10_symlink_behavior :
    (∀ (toDir : List String) (o₁ o₂ : ExtractOpts) (st : ExtractState) (entry : TarEntry),
      entry.etype = EntryType.symlink →
      o₁.strip = o₂.strip →
      o₁.map = o₂.map →
      tarProcessEntry toDir o₁ st entry = tarProcessEntry toDir o₂ st entry)
    ∧ (∀ (toDir : List String) (opts : ExtractOpts) (st : ExtractState) (entry : TarEntry)
        (rel : RelPath),
      entry.etype = EntryType.symlink →
      RelPath.new_file (entry.path.componentList.drop opts.strip) = Outcome.ok rel →
      joinComps (absComps toDir) (entry.path.componentList.drop opts.strip)
        ≠ absComps toDir →
      tarProcessEntry toDir opts st entry =
        EntryStep.next
          { files := st.files,
            effects := st.effects
              ++ (match parentComps (opts.map ⟨rel,
                    joinComps (absComps toDir) (entry.path.componentList.drop opts.strip),
                    absComps toDir⟩) with
                  | some p => [Effect.ensuredDirs p]
                  | none => [])
              ++ [Effect.createdSymlink (opts.map ⟨rel,
                    joinComps (absComps toDir) (entry.path.componentList.drop opts.strip),
                    absComps toDir⟩)] }) := by
  constructor
  · intro toDir o₁ o₂ st entry hty hstrip hmap
    unfold tarProcessEntry
    rw [hty, hstrip]
    exact tarStepCore_symlink_noFilter toDir o₁ o₂ st _ hmap
  · intro toDir opts st entry rel hty hrel hne
    unfold tarProcessEntry
    rw [hty]
    exact tarStepCore_symlinkWrite toDir opts st _ rel hne hrel

/-- Witness for C10: a symlink entry is processed identically under a
reject-all filter and the keep-all default, and its write leaves the
`files` list empty. -/
theorem c10_symlink_behavior_witness :
    tarProcessEntry ["out"]
        { strip := 0, detect_content := false, filter := fun _ => false, map := defaultMap }
        ⟨[], []⟩ ⟨⟨false, [Seg.utf8 "lnk"]⟩, EntryType.symlink⟩
      = tarProcessEntry ["out"] default_opts ⟨[], []⟩
          ⟨⟨false, [Seg.utf8 "lnk"]⟩, EntryType.symlink⟩
    ∧ tarProcessEntry ["out"] default_opts ⟨[], []⟩
        ⟨⟨false, [Seg.utf8 "lnk"]⟩, EntryType.symlink⟩
      = EntryStep.next
          { files := [],
            effects := [Effect.ensuredDirs (absComps ["out"]),
              Effect.createdSymlink (absComps ["out"] ++ [Component.normal (Seg.utf8 "lnk")])] } :=
  ⟨c10_symlink_behavior.1 ["out"]
      { strip := 0, detect_content := false, filter := fun _ => false, map := defaultMap }
      default_opts ⟨[], []⟩ ⟨⟨false, [Seg.utf8 "lnk"]⟩, EntryType.symlink⟩ rfl rfl rfl,
   (c10_symlink_behavior.2 ["out"] default_opts ⟨[], []⟩
      ⟨⟨false, [Seg.utf8 "lnk"]⟩, EntryType.symlink⟩
      ⟨RelPathKind.file, ["lnk"], "lnk"⟩ rfl (by decide) (by decide)).trans (by decide)⟩


lemma getPartsList_normComps_append (r : String) (ss : List String) (tail : List Component) :
    getPartsList r (normComps ss ++ tail) =
      match getPartsList r tail with
      | Outcome.ok parts => Outcome.ok (ss ++ parts)
      | Outcome.err e => Outcome.err e
      | Outcome.panic m => Outcome.panic m := by
  induction ss with
  | nil =>
      simp only [normComps, List.map_nil, List.nil_append]
      rcases h : getPartsList r tail with parts | e | m <;> simp
  | cons s ss ih =>
      simp only [normComps, List.map_cons, List.cons_append]
      simp only [getPartsList, Seg.toStr]
      rw [normComps] at ih
      rw [ih]
      rcases h : getPartsList r tail with parts | e | m <;> simp

lemma head_not_root_cons (ss : List String) (c : Component) (rest : List Component)
    (hc : c ≠ Component.rootDir) :
    ¬((normComps ss ++ c :: rest).head? = some Component.rootDir) := by
  cases ss with
  | nil => simp [normComps, hc]
  | cons s ss => simp [normComps]

lemma head_not_root_normComps (ss : List String) :
    ¬((normComps ss).head? = some Component.rootDir) := by
  cases ss with
  | nil => simp [normComps]
  | cons s ss => simp [normComps]

/-- C7 (amended): `RelPath` construction fails with `PathNotRelative`
on a rooted path and with `PathNotUtf8` on the first non-UTF-8 segment,
and succeeds on any all-UTF-8 segment list; but a `..` component (after
any run of normal segments) hits `unreachable!` and panics instead of
returning an error, and an interior `.` component is normalized away by
`components()`, so such a path is accepted. -/
theorem c7_relpath_construction :
    (∀ (kind : RelPathKind) (rest : List Component),
      RelPath.new kind (Component.rootDir :: rest)
        = Outcome.err (DecompressError.PathNotRelative
            (renderComps (Component.rootDir :: rest))))
    ∧ (∀ (kind : RelPathKind) (ss : List String) (bs : List Nat) (rest : List Component),
      RelPath.new kind (normComps ss ++ Component.normal (Seg.bytes bs) :: rest)
        = Outcome.err (DecompressError.PathNotUtf8
            (renderComps (normComps ss ++ Component.normal (Seg.bytes bs) :: rest))))
    ∧ (∀ (kind : RelPathKind) (ss : List String) (rest : List Component),
      RelPath.new kind (normComps ss ++ Component.parentDir :: rest)
        = Outcome.panic unreachableMsg)
    ∧ (∀ (kind : RelPathKind) (ss : List String),
      RelPath.new kind (normComps ss)
        = Outcome.ok ⟨kind, ss, String.intercalate "/" ss⟩)
    ∧ RelPath.new_file_str Platform.unix "a/./b"
        = Outcome.ok ⟨RelPathKind.file, ["a", "b"], "a/b"⟩ := by
  refine ⟨?_, ?_, ?_, ?_, by decide⟩
  · intro kind rest
    simp [RelPath.new, get_parts]
  · intro kind ss bs rest
    rw [RelPath.new, get_parts, if_neg (head_not_root_cons ss _ rest (by simp))]
    rw [getPartsList_normComps_append]
    simp [getPartsList, Seg.toStr]
  · intro kind ss rest
    rw [RelPath.new, get_parts, if_neg (head_not_root_cons ss _ rest (by simp))]
    rw [getPartsList_normComps_append]
    simp [getPartsList]
  · intro kind ss
    rw [RelPath.new, get_parts, if_neg (head_not_root_normComps ss)]
    rw [show normComps ss = normComps ss ++ [] from (List.append_nil _).symm,
      getPartsList_normComps_append]
    simp [getPartsList]

/-- C7 counterexample: constructing a `RelPath` from `..` panics
(`unreachable!`) instead of returning an error value, and constructing
one from `a/./b` — a path containing a `.` component — succeeds. -/
theorem c7_counterexample :
    RelPath.new_file_str Platform.unix ".." = Outcome.panic unreachableMsg
    ∧ RelPath.new_file_str Platform.unix "a/./b"
        = Outcome.ok ⟨RelPathKind.file, ["a", "b"], "a/b"⟩ :=
  ⟨by decide, by decide⟩

/-- C8 (amended): `/` splits archive paths into segments on every host
platform, but backslash is a separator only on Windows: on a Unix host
`aaa\bbb` is one single segment (the crate's `rel_path` unit tests,
which expect `aaa\bbb\` to be classified a directory, encode the
Windows behavior). -/
theorem c8_separators :
    RelPath.new_file_str Platform.unix "aaa/bbb"
      = Outcome.ok ⟨RelPathKind.file, ["aaa", "bbb"], "aaa/bbb"⟩
    ∧ RelPath.new_file_str Platform.windows "aaa/bbb"
      = Outcome.ok ⟨RelPathKind.file, ["aaa", "bbb"], "aaa/bbb"⟩
    ∧ RelPath.new_file_str Platform.windows "aaa\\bbb"
      = Outcome.ok ⟨RelPathKind.file, ["aaa", "bbb"], "aaa/bbb"⟩
    ∧ RelPath.new_file_str Platform.unix "aaa\\bbb"
      = Outcome.ok ⟨RelPathKind.file, ["aaa\\bbb"], "aaa\\bbb"⟩
    ∧ guess_kind Platform.windows "aaa\\bbb\\" = RelPathKind.directory
    ∧ guess_kind Platform.unix "aaa\\bbb\\" = RelPathKind.file :=
  ⟨by decide, by decide, by decide, by decide, by decide, by decide⟩

/-- C8 counterexample: on a Unix host `aaa\bbb` parses to the single
segment `aaa\bbb`, not to the two segments `aaa`, `bbb` the claim
promises on every platform. -/
theorem c8_counterexample :
    RelPath.new_file_str Platform.unix "aaa\\bbb"
      = Outcome.ok ⟨RelPathKind.file, ["aaa\\bbb"], "aaa\\bbb"⟩ := by
  decide

/-- C9: `tar_list` converts every entry path lossily and returns `Ok`
for any archive whose entries decode — including an archive with a
non-UTF-8 entry name, on which `tar_extract` fails with `PathNotUtf8`
during `RelPath` construction. -/
theorem c9_tar_list_total :
    (∀ entries : List TarEntry, ∃ l, tar_list entries = Outcome.ok l)
    ∧ tar_list [⟨⟨false, [Seg.bytes [255, 254]]⟩, EntryType.regular⟩]
        = Outcome.ok [String.mk [Char.ofNat 0xFFFD, Char.ofNat 0xFFFD]]
    ∧ (tar_extract ["out"] default_opts
        [⟨⟨false, [Seg.bytes [255, 254]]⟩, EntryType.regular⟩]).2
        = Outcome.err (DecompressError.PathNotUtf8
            (String.mk [Char.ofNat 0xFFFD, Char.ofNat 0xFFFD])) :=
  ⟨fun entries => ⟨_, rfl⟩, by decide, by decide⟩

end Decompress
